import Mathlib

/-!
Verification development for the trading-mvp repository.

The definitions below are a shallow embedding of the Python source:

* `TradingAction` and `TradingAction.from_probabilities` embed
  `app/domain/value_objects/trading_action.py`.
* `Percentage` / `mkPercentage` embed
  `app/domain/value_objects/percentage.py` (`Percentage.__post_init__`).
* `Money` and its operations embed `app/domain/value_objects/money.py`.
* `TradingDecision` / `mkTradingDecision` embed
  `app/domain/entities/trading_decision.py` (`__post_init__` validation).
* `TradingSession` and its operations embed
  `app/domain/entities/trading_session.py`.
* The repository state and use cases embed
  `in_memory_session_repository.py`, `start_trading_session.py` and
  `stop_trading_session.py`.
* The executor state and operations embed `scripts/run_realtime_trading.py`
  (`SafeBinanceExecutor`) and `binance_real_executor.py`
  (`BinanceRealExecutor.calculate_quantity`).

Python `Decimal`/`float` arithmetic is embedded as exact rationals (`ℚ`);
Python exceptions become `Except` results; `datetime.now()` becomes an
explicit time parameter; collaborator calls (account balance, ticker price,
order submission) become explicit arguments.
-/

namespace TradingMVP

/-- Trading actions, from `TradingAction(Enum)`. -/
inductive TradingAction where
  | buy
  | sell
  | flat
deriving DecidableEq, Repr

namespace TradingAction

/-- Embeds `TradingAction.from_probabilities`: BUY when
`buy_prob >= buy_threshold and buy_prob > sell_prob`, otherwise SELL when
`sell_prob >= sell_threshold and sell_prob > buy_prob`, otherwise FLAT. -/
def from_probabilities (buy_prob sell_prob buy_threshold sell_threshold : ℚ) :
    TradingAction :=
  if buy_prob ≥ buy_threshold ∧ buy_prob > sell_prob then .buy
  else if sell_prob ≥ sell_threshold ∧ sell_prob > buy_prob then .sell
  else .flat

end TradingAction

/-- Value object from `percentage.py`: a decimal in `[0, 1]`. -/
structure Percentage where
  value : ℚ
deriving DecidableEq, Repr

/-- Embeds `Percentage.__post_init__`: rejects `value < 0` and `value > 1`;
a `raise ValueError` becomes an `Except.error`. -/
def mkPercentage (value : ℚ) : Except String Percentage :=
  if value < 0 then .error "Percentage cannot be negative"
  else if value > 1 then .error "Percentage cannot exceed 100% (1.0)"
  else .ok ⟨value⟩

/-- Value object from `money.py`: a `Decimal` amount with a currency code. -/
structure Money where
  amount : ℚ
  currency : String
deriving DecidableEq, Repr

/-- Embeds `Money.__post_init__`: rejects negative amounts and currency
codes that are empty or not 3 characters long. -/
def mkMoney (amount : ℚ) (currency : String) : Except String Money :=
  if amount < 0 then .error "Money amount cannot be negative"
  else if currency.length ≠ 3 then .error "Currency must be a 3-character code"
  else .ok ⟨amount, currency⟩

namespace Money

/-- Embeds `Money._check_same_currency` followed by the operation body:
`__add__` builds `Money(self.amount + other.amount, self.currency)`, which
re-runs the constructor validation. -/
def add (a b : Money) : Except String Money :=
  if a.currency ≠ b.currency then
    .error "Cannot operate on different currencies"
  else mkMoney (a.amount + b.amount) a.currency

/-- Embeds `Money.__sub__`: same-currency check, then an explicit
negative-result check before constructing the result. -/
def sub (a b : Money) : Except String Money :=
  if a.currency ≠ b.currency then
    .error "Cannot operate on different currencies"
  else if a.amount - b.amount < 0 then
    .error "Subtraction would result in negative amount"
  else mkMoney (a.amount - b.amount) a.currency

/-- Embeds `Money.__mul__`: rejects a negative factor, then constructs
`Money(self.amount * factor, self.currency)`. -/
def mul (a : Money) (factor : ℚ) : Except String Money :=
  if factor < 0 then .error "Cannot multiply money by negative factor"
  else mkMoney (a.amount * factor) a.currency

/-- Embeds `Money.__truediv__`: rejects a divisor `≤ 0`, then constructs
`Money(self.amount / divisor, self.currency)`. -/
def div (a : Money) (divisor : ℚ) : Except String Money :=
  if divisor ≤ 0 then .error "Cannot divide money by zero or negative number"
  else mkMoney (a.amount / divisor) a.currency

/-- `Decimal.quantize(..., rounding=ROUND_HALF_UP)` at `places` decimal
digits: round to the nearest multiple of `10^(-places)`, ties away from
zero (amounts here are non-negative, where half-up is `⌊x·10^p + 1/2⌋`). -/
def quantizeHalfUp (x : ℚ) (places : ℕ) : ℚ :=
  if x ≥ 0 then (⌊x * 10 ^ places + 1/2⌋ : ℤ) / 10 ^ places
  else -((⌊-x * 10 ^ places + 1/2⌋ : ℤ) / (10 ^ places : ℚ))

/-- Embeds `Money.round`: quantize half-up, then construct the result
(which re-runs the constructor validation). -/
def roundTo (a : Money) (places : ℕ) : Except String Money :=
  mkMoney (quantizeHalfUp a.amount places) a.currency

/-- Well-formedness established by `Money.__post_init__`: every observable
`Money` has a non-negative amount and a 3-character currency code. -/
def WF (m : Money) : Prop := 0 ≤ m.amount ∧ m.currency.length = 3

instance (m : Money) : Decidable m.WF := by unfold WF; infer_instance

end Money

/-- Entity from `trading_decision.py` (immutable, `frozen=True`). -/
structure TradingDecision where
  decision_id : String
  symbol : String
  action : TradingAction
  timestamp : ℕ
  buy_probability : Percentage
  sell_probability : Percentage
  current_price : Money
  position_fraction : Percentage
  atr_percentage : Percentage
  timeframe : String
deriving DecidableEq, Repr

/-- Embeds construction of a `TradingDecision`: each probability, the price
and the fractions go through their value-object constructors
(`Percentage.__post_init__`, `Money.__post_init__`), then
`TradingDecision.__post_init__` runs `_validate_probabilities`
(`buy + sell > 1` rejected) and `_validate_position_fraction`
(`value ≤ 0` and `value > 1` rejected). -/
def mkTradingDecision (decision_id symbol : String) (action : TradingAction)
    (timestamp : ℕ) (buyProb sellProb price posFrac atrPct : ℚ)
    (currency timeframe : String) : Except String TradingDecision :=
  match mkPercentage buyProb with
  | .error e => .error e
  | .ok bp =>
    match mkPercentage sellProb with
    | .error e => .error e
    | .ok sp =>
      match mkMoney price currency with
      | .error e => .error e
      | .ok cp =>
        match mkPercentage posFrac with
        | .error e => .error e
        | .ok pf =>
          match mkPercentage atrPct with
          | .error e => .error e
          | .ok ap =>
            if bp.value + sp.value > 1 then
              .error "Buy and sell probabilities cannot exceed 100%"
            else if pf.value ≤ 0 then
              .error "Position fraction must be positive"
            else if pf.value > 1 then
              .error "Position fraction cannot exceed 100%"
            else
              .ok ⟨decision_id, symbol, action, timestamp, bp, sp, cp, pf,
                ap, timeframe⟩

/-- Session status, from `SessionStatus(Enum)` in `trading_session.py`. -/
inductive SessionStatus where
  | created
  | active
  | paused
  | stopped
  | error
deriving DecidableEq, Repr

/-- Typed rendering of the three `ValueError` messages raised by
`TradingSession.add_decision`, one constructor per distinct message
("Cannot add decision to ... session", "Session has reached maximum
decisions limit: ...", "Decision symbol ... doesn't match session
symbol ..."), carrying the values interpolated into each message. -/
inductive SessionError where
  | notActive (status : SessionStatus)
  | maxDecisionsReached (maxDecisions : ℕ)
  | symbolMismatch (decisionSymbol sessionSymbol : String)
  | cannotStart (status : SessionStatus)
  | cannotPause (status : SessionStatus)
  | cannotResume (status : SessionStatus)
deriving DecidableEq, Repr

/-- Entity from `trading_session.py`. `datetime` timestamps are embedded as
abstract `ℕ` instants supplied by the caller in place of `datetime.now()`. -/
structure TradingSession where
  session_id : String
  symbol : String
  status : SessionStatus
  created_at : ℕ
  started_at : Option ℕ
  stopped_at : Option ℕ
  decisions : List TradingDecision
  decision_interval_seconds : ℕ
  max_decisions : ℕ
deriving DecidableEq, Repr

/-- A freshly constructed `TradingSession(session_id=..., symbol=...,
decision_interval_seconds=..., max_decisions=...)` with the dataclass
defaults: status CREATED, no start/stop timestamps, no decisions. -/
def newSession (session_id symbol : String) (created_at : ℕ)
    (interval maxDecisions : ℕ) : TradingSession :=
  ⟨session_id, symbol, .created, created_at, none, none, [], interval,
    maxDecisions⟩

namespace TradingSession

/-- Embeds `TradingSession.start`: fails unless status is CREATED, else
sets ACTIVE and records `started_at = now`. -/
def start (s : TradingSession) (now : ℕ) : Except SessionError TradingSession :=
  if s.status ≠ .created then .error (.cannotStart s.status)
  else .ok { s with status := .active, started_at := some now }

/-- Embeds `TradingSession.pause`: fails unless status is ACTIVE. -/
def pause (s : TradingSession) : Except SessionError TradingSession :=
  if s.status ≠ .active then .error (.cannotPause s.status)
  else .ok { s with status := .paused }

/-- Embeds `TradingSession.resume`: fails unless status is PAUSED. -/
def resume (s : TradingSession) : Except SessionError TradingSession :=
  if s.status ≠ .paused then .error (.cannotResume s.status)
  else .ok { s with status := .active }

/-- Embeds `TradingSession.stop`: a no-op (early `return`, no exception) when
status is already STOPPED or ERROR, otherwise sets STOPPED and records
`stopped_at = now`. -/
def stop (s : TradingSession) (now : ℕ) : TradingSession :=
  if s.status = .stopped ∨ s.status = .error then s
  else { s with status := .stopped, stopped_at := some now }

/-- Embeds `TradingSession.add_decision`: rejects (in this order) a
non-ACTIVE status, a full decision list (`len(decisions) >= max_decisions`),
and a symbol mismatch, each with its own `ValueError`; otherwise appends. -/
def add_decision (s : TradingSession) (d : TradingDecision) :
    Except SessionError TradingSession :=
  if s.status ≠ .active then .error (.notActive s.status)
  else if s.decisions.length ≥ s.max_decisions then
    .error (.maxDecisionsReached s.max_decisions)
  else if d.symbol ≠ s.symbol then .error (.symbolMismatch d.symbol s.symbol)
  else .ok { s with decisions := s.decisions ++ [d] }

/-- Embeds `TradingSession.mark_error`: unconditionally sets ERROR. -/
def mark_error (s : TradingSession) : TradingSession :=
  { s with status := .error }

/-- Embeds `TradingSession.is_active`: status equals ACTIVE (and only
ACTIVE — PAUSED does not count). -/
def is_active (s : TradingSession) : Bool := s.status = .active

end TradingSession

/-- One session-mutating call, for reasoning about arbitrary sequences of
operations on a `TradingSession`. -/
inductive SessionOp where
  | start (now : ℕ)
  | pause
  | resume
  | stop (now : ℕ)
  | addDecision (d : TradingDecision)
  | markError
deriving Repr

/-- A raised `ValueError` leaves the Python object unchanged: keep the new
session on success, the old one on failure. -/
def applyExcept (s : TradingSession) : Except SessionError TradingSession →
    TradingSession
  | .ok s' => s'
  | .error _ => s

/-- Applies one operation; a failing call maps to the identity. -/
def applyOp (s : TradingSession) : SessionOp → TradingSession
  | .start now => applyExcept s (s.start now)
  | .pause => applyExcept s s.pause
  | .resume => applyExcept s s.resume
  | .stop now => s.stop now
  | .addDecision d => applyExcept s (s.add_decision d)
  | .markError => s.mark_error

/-- Applies a sequence of operations in order. -/
def runOps (s : TradingSession) (ops : List SessionOp) : TradingSession :=
  ops.foldl applyOp s

/-! ### In-memory session repository and the start/stop use cases -/

/-- Sets `d[k] = v` on an association list embedding a Python dict. -/
def upsert (k : String) (v : α) (l : List (String × α)) : List (String × α) :=
  l.filter (fun p => p.1 ≠ k) ++ [(k, v)]

/-- `del d[k]` on an association list embedding a Python dict. -/
def erase (k : String) (l : List (String × α)) : List (String × α) :=
  l.filter (fun p => p.1 ≠ k)

/-- `d.get(k)` on an association list embedding a Python dict. -/
def lookup (k : String) (l : List (String × α)) : Option α :=
  (l.find? (fun p => p.1 = k)).map (·.2)

/-- State of `InMemoryTradingSessionRepository`: `_sessions` maps
session_id to session, `_active_sessions_by_symbol` maps symbol to
session_id. -/
structure RepoState where
  sessions : List (String × TradingSession)
  activeBySymbol : List (String × String)
deriving DecidableEq, Repr

/-- The repository as constructed: both dicts empty. -/
def emptyRepo : RepoState := ⟨[], []⟩

namespace RepoState

/-- Embeds `InMemoryTradingSessionRepository.save`: stores the session under
its id; then records it in `_active_sessions_by_symbol` if `session.is_active`
(status ACTIVE), or removes the symbol's entry if it currently points at this
very session. -/
def save (r : RepoState) (s : TradingSession) : RepoState :=
  let sessions := upsert s.session_id s r.sessions
  if s.is_active then
    ⟨sessions, upsert s.symbol s.session_id r.activeBySymbol⟩
  else if lookup s.symbol r.activeBySymbol = some s.session_id then
    ⟨sessions, erase s.symbol r.activeBySymbol⟩
  else
    ⟨sessions, r.activeBySymbol⟩

/-- Embeds `InMemoryTradingSessionRepository.find_active_session`: looks the
symbol up in `_active_sessions_by_symbol`; returns the session only if it is
found and `is_active`, otherwise deletes the stale index entry and returns
`None`. The deletion mutates the repository, so the (possibly updated)
repository is returned alongside the result. -/
def find_active_session (r : RepoState) (symbol : String) :
    Option TradingSession × RepoState :=
  match lookup symbol r.activeBySymbol with
  | none => (none, r)
  | some sid =>
    match lookup sid r.sessions with
    | some s =>
      if s.is_active then (some s, r)
      else (none, ⟨r.sessions, erase symbol r.activeBySymbol⟩)
    | none => (none, ⟨r.sessions, erase symbol r.activeBySymbol⟩)

end RepoState

/-- Response of `StartTradingSessionUseCase` / `StopTradingSessionUseCase`:
an optional session, a success flag, and an error message. -/
structure UseCaseResponse where
  session : Option TradingSession
  success : Bool
  error_message : String
deriving DecidableEq, Repr

/-- Embeds `StartTradingSessionUseCase.execute`: check
`find_active_session(symbol)`; if a session comes back, return
`success=False` with no save; otherwise create a fresh CREATED session
(with a caller-supplied uuid and clock reading), `start()` it, save it, and
return `success=True`. A raised exception maps to a failure response. -/
def startTradingSession (r : RepoState) (symbol : String)
    (interval maxDecisions : ℕ) (newId : String) (now : ℕ) :
    UseCaseResponse × RepoState :=
  let (existing, r1) := r.find_active_session symbol
  match existing with
  | some _ =>
    (⟨none, false, "Active session already exists for " ++ symbol⟩, r1)
  | none =>
    let s0 := newSession newId symbol now interval maxDecisions
    match s0.start now with
    | .error _ => (⟨none, false, "session start failed"⟩, r1)
    | .ok s1 => (⟨some s1, true, ""⟩, r1.save s1)

/-- Embeds `StopTradingSessionUseCase.execute`: look up the active session
for the symbol; if none, return `success=False` with "No active session
found"; otherwise `session.stop()` (never raises), save, and return
`success=True`. -/
def stopTradingSession (r : RepoState) (symbol : String) (now : ℕ) :
    UseCaseResponse × RepoState :=
  let (existing, r1) := r.find_active_session symbol
  match existing with
  | none => (⟨none, false, "No active session found for " ++ symbol⟩, r1)
  | some s =>
    let s1 := s.stop now
    (⟨some s1, true, ""⟩, r1.save s1)

/-- The system "holds a session with status `st` for `symbol`": some stored
session record has that symbol and status. -/
def holdsSession (r : RepoState) (symbol : String) (st : SessionStatus) :
    Prop :=
  ∃ p ∈ r.sessions, (p.2).symbol = symbol ∧ (p.2).status = st

instance (r : RepoState) (symbol : String) (st : SessionStatus) :
    Decidable (holdsSession r symbol st) := by
  unfold holdsSession; infer_instance

/-! ### Quantity rounding (`round(quantity, precision)` and the precision
derived from the exchange lot step size) -/

/-- Python's `round` to an integer: round half to even (banker's
rounding). -/
def roundHalfEven (x : ℚ) : ℤ :=
  if x - ⌊x⌋ < 1/2 then ⌊x⌋
  else if x - ⌊x⌋ > 1/2 then ⌊x⌋ + 1
  else if ⌊x⌋ % 2 = 0 then ⌊x⌋ else ⌊x⌋ + 1

/-- Python's `round(x, p)` for `p` decimal places: scale, round half to
even, unscale. -/
def pyRound (x : ℚ) (p : ℕ) : ℚ := (roundHalfEven (x * 10 ^ p) : ℚ) / 10 ^ p

/-- The precision loop of `BinanceRealExecutor.calculate_quantity`:
`temp_step = step_size; while temp_step < 1: temp_step *= 10; precision += 1`.
For a step size in `(0, 1)` the loop count is the least `p` with
`step_size * 10 ^ p ≥ 1`; for a step size `≥ 1` the loop body never runs
and the precision is 0. (For a step size `≤ 0` the Python loop would not
terminate; the exchange's step sizes are positive.) -/
def stepPrecision (step_size : ℚ) : ℕ :=
  if h : 0 < step_size ∧ step_size < 1 then
    Nat.find (show ∃ p : ℕ, 1 ≤ step_size * 10 ^ p by
      obtain ⟨n, hn⟩ := exists_nat_gt (1 / step_size)
      refine ⟨n, ?_⟩
      have h2 : (n : ℚ) ≤ 10 ^ n := by
        calc (n : ℚ) ≤ 2 ^ n := by exact_mod_cast (Nat.lt_two_pow n).le
        _ ≤ 10 ^ n := by
          apply pow_le_pow_left₀ (by norm_num) (by norm_num)
      have h3 : 1 / step_size < 10 ^ n := lt_of_lt_of_le hn h2
      calc (1 : ℚ) = step_size * (1 / step_size) := by
            rw [mul_one_div, div_self (ne_of_gt h.1)]
      _ ≤ step_size * 10 ^ n :=
            mul_le_mul_of_nonneg_left h3.le h.1.le)
  else 0

/-- Embeds `BinanceRealExecutor.calculate_quantity` (with a LOT_SIZE filter
present): `quantity = usdt_amount / price`, then
`quantity = round(quantity, precision)` at the precision derived from the
step size. The current price and the step size are the values returned by
the market-data collaborator. -/
def calculate_quantity (price usdt_amount step_size : ℚ) : ℚ :=
  pyRound (usdt_amount / price) (stepPrecision step_size)

/-! ### `SafeBinanceExecutor` (`scripts/run_realtime_trading.py`) -/

/-- One entry of `SafeBinanceExecutor.positions[symbol]`. -/
structure Position where
  quantity : ℚ
  entry_price : ℚ
  entry_time : ℕ
  order_id : ℕ
deriving DecidableEq, Repr

/-- Risk configuration and mutable trading state of `SafeBinanceExecutor`. -/
structure ExecState where
  testnet : Bool
  real_trading : Bool
  position_size_percent : ℚ
  max_daily_trades : ℕ
  stop_loss_percent : ℚ
  take_profit_percent : ℚ
  min_balance : ℚ
  daily_trades : ℕ
  daily_pnl : ℚ
  positions : List (String × Position)
deriving DecidableEq, Repr

/-- The three reasons `check_safety_conditions` prints before returning
`False`, one constructor per distinct printed reason, carrying the values
interpolated into the message. -/
inductive SafetyGate where
  | dailyLimit (trades maxTrades : ℕ)
  | lowBalance (balance minBalance : ℚ)
  | notEnabled
deriving DecidableEq, Repr

/-- Embeds `SafeBinanceExecutor.check_safety_conditions`, returning the
first failing gate (the printed reason) or `none` when all checks pass.
The checks run in source order: daily trade limit, minimum balance, and —
only outside testnet mode — whether real trading is explicitly enabled.
The USDT balance returned by `get_account_balance` is an argument. -/
def checkSafetyConditions (s : ExecState) (usdt_balance : ℚ) :
    Option SafetyGate :=
  if s.daily_trades ≥ s.max_daily_trades then
    some (.dailyLimit s.daily_trades s.max_daily_trades)
  else if usdt_balance < s.min_balance then
    some (.lowBalance usdt_balance s.min_balance)
  else if ¬s.testnet ∧ ¬s.real_trading then some .notEnabled
  else none

/-- Embeds `SafeBinanceExecutor.calculate_position_size`:
`balance × position_size_percent/100`, capped at 100 USDT in testnet and
50 USDT otherwise. -/
def calculatePositionSize (s : ExecState) (usdt_balance : ℚ) : ℚ :=
  min (usdt_balance * (s.position_size_percent / 100))
    (if s.testnet then 100 else 50)

/-- Outcome of `execute_buy_order`: which path returned, together with what
the path printed. The boolean return value of the Python method is `true`
exactly for `bought` and `simulated`. -/
inductive BuyOutcome where
  | blocked (gate : SafetyGate)
  | submitFailed (msg : String)
  | bought (order_id : ℕ)
  | simulated
deriving DecidableEq, Repr

/-- The `bool` actually returned by `execute_buy_order`. -/
def BuyOutcome.succeeded : BuyOutcome → Bool
  | .blocked _ => false
  | .submitFailed _ => false
  | .bought _ => true
  | .simulated => true

/-- Embeds `SafeBinanceExecutor.execute_buy_order`. Collaborator results are
arguments: the USDT balance, the ticker price, the lot step size, and the
result of `order_market_buy` (an order id, or the exception it raised). In
the real-trading branch the quantity is `position_usdt / price` rounded by
Python's `round` at the precision the script derives from the step size
(equal to `stepPrecision` for the exchange's power-of-ten step sizes); on
submission success the position is recorded and `daily_trades` incremented;
any exception is caught and returns `False` with no state change. In the
non-real branch the order is only printed, and `daily_trades` is still
incremented. -/
def executeBuyOrder (s : ExecState) (symbol : String)
    (usdt_balance price step_size : ℚ) (submit : Except String ℕ)
    (now : ℕ) : BuyOutcome × ExecState :=
  match checkSafetyConditions s usdt_balance with
  | some gate => (.blocked gate, s)
  | none =>
    let position_usdt := calculatePositionSize s usdt_balance
    if s.real_trading then
      let quantity := pyRound (position_usdt / price) (stepPrecision step_size)
      match submit with
      | .error e => (.submitFailed e, s)
      | .ok oid =>
        (.bought oid,
          { s with
            positions := upsert symbol ⟨quantity, price, now, oid⟩ s.positions,
            daily_trades := s.daily_trades + 1 })
    else
      (.simulated, { s with daily_trades := s.daily_trades + 1 })

/-- Outcome of `execute_sell_order`. The boolean return value of the Python
method is `true` exactly for `sold` and `simulated`. -/
inductive SellOutcome where
  | noPosition
  | submitFailed (msg : String)
  | sold (pnl : ℚ)
  | simulated
deriving DecidableEq, Repr

/-- The `bool` actually returned by `execute_sell_order`. -/
def SellOutcome.succeeded : SellOutcome → Bool
  | .noPosition => false
  | .submitFailed _ => false
  | .sold _ => true
  | .simulated => true

/-- Embeds `SafeBinanceExecutor.execute_sell_order`. Fails when no position
exists for the symbol. In the real-trading branch, `order_market_sell` is
submitted (its outcome is the `submit` argument; an exception is caught and
returns `False` with no state change); on success the P&L
`(exit_price − entry_price) × quantity` is added to `daily_pnl`, the
position is removed, and `daily_trades` is incremented. In the non-real
branch the order is only printed, and the position is still removed and
`daily_trades` incremented — with no P&L computation. -/
def executeSellOrder (s : ExecState) (symbol : String) (exit_price : ℚ)
    (submit : Except String ℕ) : SellOutcome × ExecState :=
  match lookup symbol s.positions with
  | none => (.noPosition, s)
  | some pos =>
    if s.real_trading then
      match submit with
      | .error e => (.submitFailed e, s)
      | .ok _ =>
        let pnl := (exit_price - pos.entry_price) * pos.quantity
        (.sold pnl,
          { s with
            daily_pnl := s.daily_pnl + pnl,
            positions := erase symbol s.positions,
            daily_trades := s.daily_trades + 1 })
    else
      (.simulated,
        { s with
          positions := erase symbol s.positions,
          daily_trades := s.daily_trades + 1 })

/-! ### Stop-loss / take-profit monitor -/

/-- Which exit fired for a position, carrying the percentage change printed
in the reason string ("Stop loss at ...%" / "Take profit at ...%"). -/
inductive ExitTrigger where
  | stopLoss (pct : ℚ)
  | takeProfit (pct : ℚ)
deriving DecidableEq, Repr

/-- `pct_change = ((current_price - entry_price) / entry_price) * 100`. -/
def pctChange (entry_price current_price : ℚ) : ℚ :=
  (current_price - entry_price) / entry_price * 100

/-- The branch structure of one iteration of
`check_stop_loss_take_profit`: with `pct = pctChange entry current`
computed from a single price sample, trigger the stop loss when
`pct ≤ -stop_loss_percent`, otherwise (the `continue` skips the second
check) trigger the take profit when `pct ≥ take_profit_percent`, otherwise
nothing. -/
def slTpTrigger (stop_loss_percent take_profit_percent entry_price
    current_price : ℚ) : Option ExitTrigger :=
  if pctChange entry_price current_price ≤ -stop_loss_percent then
    some (.stopLoss (pctChange entry_price current_price))
  else if pctChange entry_price current_price ≥ take_profit_percent then
    some (.takeProfit (pctChange entry_price current_price))
  else none

/-- One iteration of the `check_stop_loss_take_profit` loop for one
position: sample the price once, evaluate both checks on that sample, and
execute at most one SELL. Returns the updated state and the trigger (if
any) for this position. -/
def monitorStep (priceOf : String → ℚ) (submitOf : String → Except String ℕ)
    (s : ExecState) (symbol : String) (pos : Position) :
    ExecState × Option ExitTrigger :=
  let current := priceOf symbol
  match slTpTrigger s.stop_loss_percent s.take_profit_percent
      pos.entry_price current with
  | some t => ((executeSellOrder s symbol current (submitOf symbol)).2, some t)
  | none => (s, none)

/-- Embeds `SafeBinanceExecutor.check_stop_loss_take_profit`: iterate over a
snapshot of `positions.items()`, running `monitorStep` once per open
position. Returns the final state and, per position, which trigger (if any)
fired. -/
def checkStopLossTakeProfit (priceOf : String → ℚ)
    (submitOf : String → Except String ℕ) (s : ExecState) :
    ExecState × List (String × Option ExitTrigger) :=
  s.positions.foldl
    (fun acc p =>
      let r := monitorStep priceOf submitOf acc.1 p.1 p.2
      (r.1, acc.2 ++ [(p.1, r.2)]))
    (s, [])

/-! ### `BinanceRealExecutor` safety checks (`binance_real_executor.py`) -/

/-- The four reasons `BinanceRealExecutor._safety_checks` logs before
returning `False`, in source order. -/
inductive RealSafetyGate where
  | notEnabled
  | positionTooLarge (usdt_amount max_position_size : ℚ)
  | lowBalance (balance min_balance_required : ℚ)
  | insufficientBalance (balance usdt_amount : ℚ)
deriving DecidableEq, Repr

/-- Embeds `BinanceRealExecutor._safety_checks`: real trading must be
enabled (unconditionally — no testnet exemption here), the order notional
must not exceed `max_position_size`, and the USDT balance must be at least
`min_balance_required` and at least the notional. Returns the first failing
gate, or `none`. -/
def realSafetyChecks (real_trading_enabled : Bool)
    (max_position_size min_balance_required usdt_amount balance : ℚ) :
    Option RealSafetyGate :=
  if ¬real_trading_enabled then some .notEnabled
  else if usdt_amount > max_position_size then
    some (.positionTooLarge usdt_amount max_position_size)
  else if balance < min_balance_required then
    some (.lowBalance balance min_balance_required)
  else if balance < usdt_amount then
    some (.insufficientBalance balance usdt_amount)
  else none

/-- Embeds `BinanceRealExecutor.place_market_buy`: when a safety check
fails the method returns `None` without touching the order collaborator;
otherwise the `order_market_buy` outcome (the `submit` argument) is
returned, a raised exception being re-raised (`Except.error`). -/
def placeMarketBuy (real_trading_enabled : Bool)
    (max_position_size min_balance_required usdt_amount balance : ℚ)
    (submit : Except String ℕ) : Except String (Option ℕ) :=
  match realSafetyChecks real_trading_enabled max_position_size
      min_balance_required usdt_amount balance with
  | some _ => .ok none
  | none =>
    match submit with
    | .error e => .error e
    | .ok oid => .ok (some oid)

/-! ### Concrete states used by witnesses and counterexamples -/

/-- A valid concrete decision for the session-entity statements. -/
def sampleDecision : TradingDecision :=
  ⟨"d-1", "BTCUSDT", .flat, 0, ⟨1/2⟩, ⟨1/4⟩, ⟨50000, "USD"⟩, ⟨1/2⟩, ⟨1/100⟩,
    "1h"⟩

/-- An ACTIVE session already holding `max_decisions = 1` decisions. -/
def fullSession : TradingSession :=
  ⟨"sid-0", "BTCUSDT", .active, 0, some 0, none, [sampleDecision], 60, 1⟩

/-- A PAUSED session for BTCUSDT. -/
def pausedSession : TradingSession :=
  ⟨"sid-1", "BTCUSDT", .paused, 0, some 0, none, [], 60, 1000⟩

/-- The repository after saving the paused session. -/
def pausedRepo : RepoState := emptyRepo.save pausedSession

/-- An ACTIVE session for BTCUSDT. -/
def activeSession : TradingSession :=
  ⟨"sid-1", "BTCUSDT", .active, 0, some 0, none, [], 60, 1000⟩

/-- The repository after saving the active session (which also indexes it
in `_active_sessions_by_symbol`). -/
def activeRepo : RepoState := emptyRepo.save activeSession

/-- A STOPPED session for BTCUSDT. -/
def stoppedSession : TradingSession :=
  ⟨"sid-1", "BTCUSDT", .stopped, 0, some 0, some 1, [], 60, 1000⟩

/-- The repository after saving the stopped session. -/
def stoppedRepo : RepoState := emptyRepo.save stoppedSession

/-- Executor state in testnet mode with real trading not enabled, no
trades so far, and default risk limits. -/
def testnetExecState : ExecState :=
  ⟨true, false, 1, 10, 2, 3, 100, 0, 0, []⟩

/-- Executor state whose daily trade count has reached the daily cap. -/
def cappedExecState : ExecState :=
  ⟨true, false, 1, 10, 2, 3, 100, 10, 0, []⟩

/-- Simulated-mode executor state holding one open BTCUSDT position of
quantity 1 bought at 100. -/
def simSellState : ExecState :=
  ⟨true, false, 1, 10, 2, 3, 100, 0, 0, [("BTCUSDT", ⟨1, 100, 0, 7⟩)]⟩

/-- Live-mode executor state holding one open BTCUSDT position of
quantity 1 bought at 100. -/
def liveSellState : ExecState :=
  ⟨false, true, 1, 10, 2, 3, 100, 0, 0, [("BTCUSDT", ⟨1, 100, 0, 7⟩)]⟩

/-- Executor state with stop-loss 2% holding one position entered at 100,
for the stop-loss scenario. -/
def slScenarioState : ExecState :=
  ⟨true, false, 1, 10, 2, 3, 100, 0, 0, [("BTCUSDT", ⟨1, 100, 0, 7⟩)]⟩

/-- The session-entity invariant claimed in the spec: the decision list
never exceeds `max_decisions`. -/
def sessionInv (s : TradingSession) : Prop :=
  s.decisions.length ≤ s.max_decisions

instance (s : TradingSession) : Decidable (sessionInv s) := by
  unfold sessionInv; infer_instance

/-! ## Theorems -/

theorem mkPercentage_ok_iff (v : ℚ) (p : Percentage) :
    mkPercentage v = .ok p ↔ 0 ≤ v ∧ v ≤ 1 ∧ p.value = v := by
  obtain ⟨pv⟩ := p
  unfold mkPercentage
  split_ifs with h1 h2
  · simp only [reduceCtorEq, false_iff]
    rintro ⟨h, -, -⟩; linarith
  · simp only [reduceCtorEq, false_iff]
    rintro ⟨-, h, -⟩; linarith
  · simp only [Except.ok.injEq, Percentage.mk.injEq]
    constructor
    · rintro rfl
      exact ⟨not_lt.1 h1, not_lt.1 h2, rfl⟩
    · rintro ⟨-, -, rfl⟩; rfl

theorem mkPercentage_error (v : ℚ) (h : v < 0 ∨ 1 < v) :
    ∃ e, mkPercentage v = .error e := by
  unfold mkPercentage
  split_ifs with h1 h2
  · exact ⟨_, rfl⟩
  · exact ⟨_, rfl⟩
  · rcases h with h | h
    · exact absurd h h1
    · exact absurd h (by simpa using h2)

theorem mkMoney_ok_iff (q : ℚ) (c : String) (m : Money) :
    mkMoney q c = .ok m ↔ 0 ≤ q ∧ c.length = 3 ∧ m.amount = q ∧ m.currency = c := by
  obtain ⟨ma, mc⟩ := m
  unfold mkMoney
  split_ifs with h1 h2
  · simp only [reduceCtorEq, false_iff]
    rintro ⟨h, -, -⟩; linarith
  · simp only [reduceCtorEq, false_iff]
    rintro ⟨-, h, -⟩; exact h2 h
  · simp only [Except.ok.injEq, Money.mk.injEq]
    constructor
    · rintro ⟨rfl, rfl⟩
      exact ⟨not_lt.1 h1, not_not.1 h2, rfl, rfl⟩
    · rintro ⟨-, -, rfl, rfl⟩; exact ⟨rfl, rfl⟩

/-- C3: the computed action is BUY iff `buy_prob ≥ buy_threshold` and
`buy_prob > sell_prob`; SELL iff `sell_prob ≥ sell_threshold` and
`sell_prob > buy_prob`; FLAT in every other case, and in particular FLAT
whenever the probabilities are equal, regardless of thresholds. -/
theorem from_probabilities_spec (bp sp bt st : ℚ) :
    (TradingAction.from_probabilities bp sp bt st = .buy ↔ bp ≥ bt ∧ bp > sp) ∧
    (TradingAction.from_probabilities bp sp bt st = .sell ↔ sp ≥ st ∧ sp > bp) ∧
    (¬(bp ≥ bt ∧ bp > sp) → ¬(sp ≥ st ∧ sp > bp) →
      TradingAction.from_probabilities bp sp bt st = .flat) ∧
    (bp = sp → TradingAction.from_probabilities bp sp bt st = .flat) := by
  unfold TradingAction.from_probabilities
  split_ifs with h1 h2
  · refine ⟨by simp [h1], ?_, ?_, ?_⟩
    · simp only [reduceCtorEq, false_iff]
      rintro ⟨-, h⟩; exact absurd h1.2 (lt_asymm h)
    · intro hc; exact absurd h1 hc
    · intro he; exact absurd h1.2 (by rw [he]; exact lt_irrefl sp)
  · refine ⟨by simp [h1], by simp [h2], ?_, ?_⟩
    · intro _ hc; exact absurd h2 hc
    · intro he; exact absurd h2.2 (by rw [he]; exact lt_irrefl sp)
  · exact ⟨by simp [h1], by simp [h2], fun _ _ => rfl, fun _ => rfl⟩

/-- Witness for C3: equal probabilities give FLAT at a concrete input. -/
theorem from_probabilities_spec_witness :
    TradingAction.from_probabilities (1/2) (1/2) (3/5) (3/5) = .flat :=
  (from_probabilities_spec (1/2) (1/2) (3/5) (3/5)).2.2.2 rfl

theorem applyOp_preserves_inv (s : TradingSession) (op : SessionOp)
    (h : sessionInv s) : sessionInv (applyOp s op) := by
  cases op with
  | start now =>
    unfold applyOp TradingSession.start
    split_ifs <;> simpa [applyExcept, sessionInv] using h
  | pause =>
    unfold applyOp TradingSession.pause
    split_ifs <;> simpa [applyExcept, sessionInv] using h
  | resume =>
    unfold applyOp TradingSession.resume
    split_ifs <;> simpa [applyExcept, sessionInv] using h
  | stop now =>
    unfold applyOp TradingSession.stop
    split_ifs <;> simpa [sessionInv] using h
  | addDecision d =>
    unfold applyOp TradingSession.add_decision
    by_cases h1 : s.status ≠ .active
    · simp only [if_pos h1, applyExcept]; exact h
    · by_cases h2 : s.decisions.length ≥ s.max_decisions
      · simp only [if_neg h1, if_pos h2, applyExcept]; exact h
      · by_cases h3 : d.symbol ≠ s.symbol
        · simp only [if_neg h1, if_neg h2, if_pos h3, applyExcept]; exact h
        · simp only [if_neg h1, if_neg h2, if_neg h3, applyExcept, sessionInv,
            List.length_append, List.length_cons, List.length_nil] at h ⊢
          omega
  | markError =>
    unfold applyOp TradingSession.mark_error
    simpa [sessionInv] using h

theorem runOps_preserves_inv (ops : List SessionOp) (s : TradingSession)
    (h : sessionInv s) : sessionInv (runOps s ops) := by
  induction ops generalizing s with
  | nil => exact h
  | cons op rest ih =>
    exact ih (applyOp s op) (applyOp_preserves_inv s op h)

/-- C4: `add_decision` fails with a distinct validation error when the
status is not ACTIVE, when the session already holds `max_decisions`
decisions, or when the decision's symbol differs from the session's, and
appends the decision otherwise; `len(decisions) ≤ max_decisions` holds
after every sequence of session operations on a new session, and an
append attempt on a session holding `max_decisions` decisions fails. -/
theorem add_decision_spec :
    (∀ (s : TradingSession) (d : TradingDecision),
      (s.status ≠ .active →
        s.add_decision d = .error (.notActive s.status)) ∧
      (s.status = .active → s.decisions.length ≥ s.max_decisions →
        s.add_decision d = .error (.maxDecisionsReached s.max_decisions)) ∧
      (s.status = .active → s.decisions.length < s.max_decisions →
        d.symbol ≠ s.symbol →
        s.add_decision d = .error (.symbolMismatch d.symbol s.symbol)) ∧
      (s.status = .active → s.decisions.length < s.max_decisions →
        d.symbol = s.symbol →
        s.add_decision d = .ok { s with decisions := s.decisions ++ [d] }) ∧
      (∀ (st : SessionStatus) (n : ℕ) (a b : String),
        SessionError.notActive st ≠ .maxDecisionsReached n ∧
        SessionError.notActive st ≠ .symbolMismatch a b ∧
        SessionError.maxDecisionsReached n ≠ .symbolMismatch a b) ∧
      (s.decisions.length = s.max_decisions →
        ∃ e, s.add_decision d = .error e)) ∧
    (∀ (sid sym : String) (t iv md : ℕ) (ops : List SessionOp),
      (runOps (newSession sid sym t iv md) ops).decisions.length ≤
        (runOps (newSession sid sym t iv md) ops).max_decisions) := by
  constructor
  · intro s d
    refine ⟨?_, ?_, ?_, ?_, ?_, ?_⟩
    · intro h; unfold TradingSession.add_decision; rw [if_pos h]
    · intro h1 h2
      unfold TradingSession.add_decision
      rw [if_neg (by simp [h1]), if_pos h2]
    · intro h1 h2 h3
      unfold TradingSession.add_decision
      rw [if_neg (by simp [h1]), if_neg (by omega), if_pos h3]
    · intro h1 h2 h3
      unfold TradingSession.add_decision
      rw [if_neg (by simp [h1]), if_neg (by omega), if_neg (by simp [h3])]
    · intro st n a b; refine ⟨?_, ?_, ?_⟩ <;> intro hc <;> cases hc
    · intro h
      unfold TradingSession.add_decision
      split_ifs with h1 h2 h3
      · exact ⟨_, rfl⟩
      · exact ⟨_, rfl⟩
      · exact ⟨_, rfl⟩
      · omega
  · intro sid sym t iv md ops
    exact runOps_preserves_inv ops (newSession sid sym t iv md)
      (by simp [sessionInv, newSession])

/-- Witness for C4: on a concrete ACTIVE session already holding
`max_decisions = 1` decisions, the next append attempt fails. -/
theorem add_decision_spec_witness :
    ∃ e, fullSession.add_decision sampleDecision = .error e :=
  (add_decision_spec.1 fullSession sampleDecision).2.2.2.2.2 rfl

theorem mkTradingDecision_ok_fields (did sym : String) (a : TradingAction)
    (ts : ℕ) (bp sp price pf atr : ℚ) (cur tf : String)
    (d : TradingDecision)
    (hok : mkTradingDecision did sym a ts bp sp price pf atr cur tf = .ok d) :
    0 ≤ d.buy_probability.value ∧ d.buy_probability.value ≤ 1 ∧
    0 ≤ d.sell_probability.value ∧ d.sell_probability.value ≤ 1 ∧
    d.buy_probability.value + d.sell_probability.value ≤ 1 ∧
    0 < d.position_fraction.value ∧ d.position_fraction.value ≤ 1 ∧
    d.buy_probability.value = bp ∧ d.sell_probability.value = sp ∧
    d.position_fraction.value = pf ∧ 0 ≤ d.current_price.amount := by
  unfold mkTradingDecision at hok
  cases hbp : mkPercentage bp with
  | error e => simp [hbp] at hok
  | ok bpp =>
  cases hsp : mkPercentage sp with
  | error e => simp [hbp, hsp] at hok
  | ok spp =>
  cases hcp : mkMoney price cur with
  | error e => simp [hbp, hsp, hcp] at hok
  | ok cpp =>
  cases hpf : mkPercentage pf with
  | error e => simp [hbp, hsp, hcp, hpf] at hok
  | ok pfp =>
  cases hap : mkPercentage atr with
  | error e => simp [hbp, hsp, hcp, hpf, hap] at hok
  | ok app =>
  simp only [hbp, hsp, hcp, hpf, hap] at hok
  split_ifs at hok with h1 h2 h3
  simp only [Except.ok.injEq] at hok
  subst hok
  obtain ⟨hb0, hb1, hbv⟩ := (mkPercentage_ok_iff bp bpp).1 hbp
  obtain ⟨hs0, hs1, hsv⟩ := (mkPercentage_ok_iff sp spp).1 hsp
  obtain ⟨hq0, -, hqv, -⟩ := (mkMoney_ok_iff price cur cpp).1 hcp
  obtain ⟨-, hp1, hpv⟩ := (mkPercentage_ok_iff pf pfp).1 hpf
  refine ⟨by rw [hbv]; exact hb0, by rw [hbv]; exact hb1,
    by rw [hsv]; exact hs0, by rw [hsv]; exact hs1,
    not_lt.1 h1, not_le.1 h2, not_lt.1 h3, hbv, hsv, hpv, ?_⟩
  rw [hqv]; exact hq0

/-- C8: a TradingDecision exists only if both probabilities are in [0,1],
their sum is at most 1, and the position fraction is in (0,1]; every
constructor call violating any of these conditions returns a validation
error. -/
theorem mkTradingDecision_spec (did sym : String) (a : TradingAction)
    (ts : ℕ) (bp sp price pf atr : ℚ) (cur tf : String) :
    (∀ d, mkTradingDecision did sym a ts bp sp price pf atr cur tf = .ok d →
      0 ≤ d.buy_probability.value ∧ d.buy_probability.value ≤ 1 ∧
      0 ≤ d.sell_probability.value ∧ d.sell_probability.value ≤ 1 ∧
      d.buy_probability.value + d.sell_probability.value ≤ 1 ∧
      0 < d.position_fraction.value ∧ d.position_fraction.value ≤ 1) ∧
    (¬(0 ≤ bp ∧ bp ≤ 1 ∧ 0 ≤ sp ∧ sp ≤ 1 ∧ bp + sp ≤ 1 ∧
        0 < pf ∧ pf ≤ 1) →
      ∃ e, mkTradingDecision did sym a ts bp sp price pf atr cur tf =
        .error e) := by
  constructor
  · intro d hok
    obtain ⟨u1, u2, u3, u4, u5, u6, u7, -⟩ :=
      mkTradingDecision_ok_fields did sym a ts bp sp price pf atr cur tf d hok
    exact ⟨u1, u2, u3, u4, u5, u6, u7⟩
  · intro hviol
    cases hres : mkTradingDecision did sym a ts bp sp price pf atr cur tf with
    | error e => exact ⟨e, rfl⟩
    | ok d =>
      obtain ⟨hb0, hb1, hs0, hs1, hsum, hpf0, hpf1, hbv, hsv, hpv, -⟩ :=
        mkTradingDecision_ok_fields did sym a ts bp sp price pf atr cur tf
          d hres
      rw [hbv] at hb0 hb1
      rw [hsv] at hs0 hs1
      rw [hbv, hsv] at hsum
      rw [hpv] at hpf0 hpf1
      exact absurd ⟨hb0, hb1, hs0, hs1, hsum, hpf0, hpf1⟩ hviol

/-- Witness for C8: a constructor call with `bp + sp = 5/4 > 1` fails. -/
theorem mkTradingDecision_spec_witness :
    ∃ e, mkTradingDecision "d-2" "BTCUSDT" .flat 0 (3/4) (1/2) 1 (1/2)
      0 "USD" "1h" = .error e :=
  (mkTradingDecision_spec "d-2" "BTCUSDT" .flat 0 (3/4) (1/2) 1 (1/2)
    0 "USD" "1h").2 (by intro hc; have := hc.2.2.2.2.1; linarith)

theorem quantizeHalfUp_nonneg (x : ℚ) (p : ℕ) (h : 0 ≤ x) :
    0 ≤ Money.quantizeHalfUp x p := by
  unfold Money.quantizeHalfUp
  rw [if_pos h]
  apply div_nonneg _ (by positivity)
  have : (0 : ℤ) ≤ ⌊x * 10 ^ p + 1/2⌋ := Int.le_floor.2 (by positivity)
  exact_mod_cast this

/-- C10: `mkMoney` rejects negative amounts, and the Money operations are
closed: on well-formed inputs each either fails (negative result,
non-positive divisor, negative factor, mismatched currencies) or returns a
Money with a non-negative amount in the same currency; in particular every
TradingDecision's current_price has a non-negative amount. -/
theorem money_spec :
    (∀ (q : ℚ) (c : String) (m : Money), mkMoney q c = .ok m →
      0 ≤ m.amount ∧ m.WF ∧ m.amount = q ∧ m.currency = c) ∧
    (∀ (q : ℚ) (c : String), q < 0 → ∃ e, mkMoney q c = .error e) ∧
    (∀ a b : Money, a.WF → b.WF → a.currency = b.currency →
      ∃ m, a.add b = .ok m ∧ m.WF ∧ m.currency = a.currency ∧
        m.amount = a.amount + b.amount) ∧
    (∀ a b : Money, a.currency ≠ b.currency →
      (∃ e, a.add b = .error e) ∧ (∃ e, a.sub b = .error e)) ∧
    (∀ a b : Money, a.WF → b.WF → a.currency = b.currency →
      (a.amount - b.amount < 0 → ∃ e, a.sub b = .error e) ∧
      (0 ≤ a.amount - b.amount → ∃ m, a.sub b = .ok m ∧ m.WF ∧
        m.currency = a.currency ∧ m.amount = a.amount - b.amount)) ∧
    (∀ (a : Money) (f : ℚ), a.WF →
      (f < 0 → ∃ e, a.mul f = .error e) ∧
      (0 ≤ f → ∃ m, a.mul f = .ok m ∧ m.WF ∧ m.currency = a.currency ∧
        m.amount = a.amount * f)) ∧
    (∀ (a : Money) (v : ℚ), a.WF →
      (v ≤ 0 → ∃ e, a.div v = .error e) ∧
      (0 < v → ∃ m, a.div v = .ok m ∧ m.WF ∧ m.currency = a.currency)) ∧
    (∀ (a : Money) (p : ℕ), a.WF →
      ∃ m, a.roundTo p = .ok m ∧ m.WF ∧ m.currency = a.currency) ∧
    (∀ (did sym : String) (act : TradingAction) (ts : ℕ)
      (bp sp price pf atr : ℚ) (cur tf : String) (d : TradingDecision),
      mkTradingDecision did sym act ts bp sp price pf atr cur tf = .ok d →
      0 ≤ d.current_price.amount) := by
  have hmk : ∀ (q : ℚ) (c : String), 0 ≤ q → c.length = 3 →
      mkMoney q c = .ok ⟨q, c⟩ := by
    intro q c hq hc
    unfold mkMoney
    rw [if_neg (not_lt.2 hq), if_neg (by simp [hc])]
  refine ⟨?_, ?_, ?_, ?_, ?_, ?_, ?_, ?_, ?_⟩
  · intro q c m h
    obtain ⟨hq, hc, ha, hcur⟩ := (mkMoney_ok_iff q c m).1 h
    exact ⟨ha ▸ hq, ⟨ha ▸ hq, hcur ▸ hc⟩, ha, hcur⟩
  · intro q c h
    unfold mkMoney
    rw [if_pos h]
    exact ⟨_, rfl⟩
  · intro a b ha hb hc
    refine ⟨⟨a.amount + b.amount, a.currency⟩, ?_,
      ⟨add_nonneg ha.1 hb.1, ha.2⟩, rfl, rfl⟩
    unfold Money.add
    rw [if_neg (by simp [hc])]
    exact hmk _ _ (add_nonneg ha.1 hb.1) ha.2
  · intro a b h
    unfold Money.add Money.sub
    rw [if_pos h, if_pos h]
    exact ⟨⟨_, rfl⟩, ⟨_, rfl⟩⟩
  · intro a b ha hb hc
    constructor
    · intro hneg
      unfold Money.sub
      rw [if_neg (by simp [hc]), if_pos hneg]
      exact ⟨_, rfl⟩
    · intro hpos
      refine ⟨⟨a.amount - b.amount, a.currency⟩, ?_, ⟨hpos, ha.2⟩, rfl, rfl⟩
      unfold Money.sub
      rw [if_neg (by simp [hc]), if_neg (not_lt.2 hpos)]
      exact hmk _ _ hpos ha.2
  · intro a f ha
    constructor
    · intro hneg
      unfold Money.mul
      rw [if_pos hneg]
      exact ⟨_, rfl⟩
    · intro hpos
      refine ⟨⟨a.amount * f, a.currency⟩, ?_,
        ⟨mul_nonneg ha.1 hpos, ha.2⟩, rfl, rfl⟩
      unfold Money.mul
      rw [if_neg (not_lt.2 hpos)]
      exact hmk _ _ (mul_nonneg ha.1 hpos) ha.2
  · intro a v ha
    constructor
    · intro hneg
      unfold Money.div
      rw [if_pos hneg]
      exact ⟨_, rfl⟩
    · intro hpos
      refine ⟨⟨a.amount / v, a.currency⟩, ?_,
        ⟨div_nonneg ha.1 hpos.le, ha.2⟩, rfl⟩
      unfold Money.div
      rw [if_neg (not_le.2 hpos)]
      exact hmk _ _ (div_nonneg ha.1 hpos.le) ha.2
  · intro a p ha
    refine ⟨⟨Money.quantizeHalfUp a.amount p, a.currency⟩, ?_,
      ⟨quantizeHalfUp_nonneg a.amount p ha.1, ha.2⟩, rfl⟩
    unfold Money.roundTo
    exact hmk _ _ (quantizeHalfUp_nonneg a.amount p ha.1) ha.2
  · intro did sym act ts bp sp price pf atr cur tf d hok
    exact (mkTradingDecision_ok_fields did sym act ts bp sp price pf atr
      cur tf d hok).2.2.2.2.2.2.2.2.2.2
/-- Witness for C10: adding 2 USD and 3 USD yields a well-formed 5 USD. -/
theorem money_spec_witness :
    ∃ m, Money.add ⟨2, "USD"⟩ ⟨3, "USD"⟩ = .ok m ∧ m.WF ∧
      m.currency = "USD" ∧ m.amount = 2 + 3 :=
  money_spec.2.2.1 ⟨2, "USD"⟩ ⟨3, "USD"⟩ ⟨by norm_num, rfl⟩
    ⟨by norm_num, rfl⟩ rfl

/-- C5: per position per tick the monitor computes
`pct_change = (current − entry)/entry × 100` from a single price sample;
the stop loss fires iff `pct_change ≤ −stop_loss_percent`, the take profit
fires iff the stop loss did not fire and `pct_change ≥ take_profit_percent`,
and at most one of the two fires; entry 100, stop-loss 2%, price 97.5 gives
`pct_change = −2.5` and fires the stop loss, also through a whole monitor
tick over the open-position table. -/
theorem monitor_spec (sl tp entry current : ℚ) (hentry : 0 < entry) :
    (slTpTrigger sl tp entry current =
        some (.stopLoss (pctChange entry current)) ↔
      pctChange entry current ≤ -sl) ∧
    (slTpTrigger sl tp entry current =
        some (.takeProfit (pctChange entry current)) ↔
      (¬pctChange entry current ≤ -sl ∧ tp ≤ pctChange entry current)) ∧
    (∀ t1 t2, slTpTrigger sl tp entry current = some t1 →
      slTpTrigger sl tp entry current = some t2 → t1 = t2) ∧
    (entry = 100 → sl = 2 → current = 195/2 →
      pctChange entry current = -5/2 ∧
      slTpTrigger sl tp entry current = some (.stopLoss (-5/2))) ∧
    ((checkStopLossTakeProfit (fun _ => 195/2) (fun _ => .ok 1)
        slScenarioState).2 = [("BTCUSDT", some (.stopLoss (-5/2)))] ∧
      (checkStopLossTakeProfit (fun _ => 195/2) (fun _ => .ok 1)
        slScenarioState).1.positions = []) := by
  have hq : (0 : ℚ) < entry := hentry
  unfold slTpTrigger
  refine ⟨?_, ?_, ?_, ?_, ?_⟩
  · split_ifs with h1 h2
    · simp [h1]
    · simp only [Option.some.injEq, reduceCtorEq, false_iff]
      exact h1
    · simp only [reduceCtorEq, false_iff]
      exact h1
  · split_ifs with h1 h2
    · simp only [Option.some.injEq, reduceCtorEq, false_iff]
      rintro ⟨hc, -⟩; exact hc h1
    · simp only [Option.some.injEq, ExitTrigger.takeProfit.injEq, true_iff]
      exact ⟨h1, h2⟩
    · simp only [reduceCtorEq, false_iff]
      rintro ⟨-, hc⟩; exact h2 hc
  · intro t1 t2 e1 e2
    exact Option.some_injective _ (e1.symm.trans e2)
  · rintro rfl rfl rfl
    have hpct : pctChange 100 (195/2) = -5/2 := by
      norm_num [pctChange]
    refine ⟨hpct, ?_⟩
    rw [if_pos (by rw [hpct]; norm_num)]
    rw [hpct]
  · constructor <;>
      norm_num [checkStopLossTakeProfit, slScenarioState, monitorStep,
        slTpTrigger, pctChange, executeSellOrder, lookup, erase,
        List.find?, List.filter]

/-- Witness for C5: the concrete stop-loss scenario. -/
theorem monitor_spec_witness :
    pctChange 100 (195/2) = -5/2 ∧
    slTpTrigger 2 3 100 (195/2) = some (.stopLoss (-5/2)) :=
  (monitor_spec 2 3 100 (195/2) (by norm_num)).2.2.2.1 rfl rfl rfl

/-- C1 (amended): when the repository's active-session index maps the
symbol to a stored session whose status is ACTIVE, the start use case
returns success=false with no session, and the repository is completely
unchanged. -/
theorem start_blocked_by_active_session (r : RepoState) (sym : String)
    (iv md : ℕ) (nid : String) (now : ℕ) (sid : String) (s : TradingSession)
    (h1 : lookup sym r.activeBySymbol = some sid)
    (h2 : lookup sid r.sessions = some s)
    (h3 : s.status = .active) :
    (startTradingSession r sym iv md nid now).1.success = false ∧
    (startTradingSession r sym iv md nid now).1.session = none ∧
    (startTradingSession r sym iv md nid now).2 = r := by
  unfold startTradingSession RepoState.find_active_session
  simp [h1, h2, TradingSession.is_active, h3]

/-- C1 counterexample: the repository holds a PAUSED session for BTCUSDT,
yet the start use case returns success=true and changes the stored session
set (a new session is created and saved) — so a PAUSED session does not
block a new start. -/
theorem start_paused_counterexample :
    holdsSession pausedRepo "BTCUSDT" .paused ∧
    (startTradingSession pausedRepo "BTCUSDT" 60 1000 "sid-2" 5).1.success =
      true ∧
    (startTradingSession pausedRepo "BTCUSDT" 60 1000 "sid-2" 5).2.sessions ≠
      pausedRepo.sessions := by
  exact ⟨by decide, by decide, by decide⟩

/-- Witness for C1: a concrete repository holding an ACTIVE BTCUSDT session
rejects a new start and is left unchanged. -/
theorem start_blocked_by_active_session_witness :
    (startTradingSession activeRepo "BTCUSDT" 60 1000 "sid-2" 5).1.success =
      false ∧
    (startTradingSession activeRepo "BTCUSDT" 60 1000 "sid-2" 5).1.session =
      none ∧
    (startTradingSession activeRepo "BTCUSDT" 60 1000 "sid-2" 5).2 =
      activeRepo :=
  start_blocked_by_active_session activeRepo "BTCUSDT" 60 1000 "sid-2" 5
    "sid-1" activeSession (by decide) (by decide) rfl

theorem find_active_session_sessions (r : RepoState) (sym : String) :
    ((r.find_active_session sym).2).sessions = r.sessions := by
  unfold RepoState.find_active_session
  cases h1 : lookup sym r.activeBySymbol with
  | none => rfl
  | some sid =>
    cases h2 : lookup sid r.sessions with
    | none => simp [h2]
    | some s =>
      by_cases h3 : s.is_active
      · simp [h2, h3]
      · simp [h2, h3]

/-- C9 (amended): the entity-level stop is idempotent — stopping a STOPPED
or ERROR session is a no-op that changes nothing and raises nothing, and
stopping any non-terminal session sets STOPPED and records stopped_at —
but the public stop operation returns success=false ("No active session
found") whenever the symbol has no ACTIVE session, in particular for an
already-STOPPED session, leaving the stored sessions unchanged. -/
theorem stop_idempotent_spec :
    (∀ (s : TradingSession) (now : ℕ),
      s.status = .stopped ∨ s.status = .error → s.stop now = s) ∧
    (∀ (s : TradingSession) (now : ℕ),
      s.status ≠ .stopped → s.status ≠ .error →
      (s.stop now).status = .stopped ∧ (s.stop now).stopped_at = some now ∧
      (s.stop now).decisions = s.decisions ∧
      (s.stop now).session_id = s.session_id ∧
      (s.stop now).symbol = s.symbol) ∧
    (∀ (r : RepoState) (sym : String) (now : ℕ),
      (r.find_active_session sym).1 = none →
      (stopTradingSession r sym now).1.success = false ∧
      (stopTradingSession r sym now).1.session = none ∧
      ((stopTradingSession r sym now).2).sessions = r.sessions) := by
  refine ⟨?_, ?_, ?_⟩
  · intro s now h
    unfold TradingSession.stop
    rw [if_pos h]
  · intro s now h1 h2
    unfold TradingSession.stop
    rw [if_neg (by rintro (h | h) <;> [exact h1 h; exact h2 h])]
    exact ⟨rfl, rfl, rfl, rfl, rfl⟩
  · intro r sym now h
    have hs := find_active_session_sessions r sym
    unfold stopTradingSession
    rcases hfind : r.find_active_session sym with ⟨existing, r1⟩
    rw [hfind] at h hs
    simp only at h hs
    subst h
    simp [hs]

/-- C9 counterexample: the repository holds a STOPPED session for BTCUSDT,
and the public stop operation returns success=false — not the claimed
success=true. -/
theorem stop_stopped_counterexample :
    holdsSession stoppedRepo "BTCUSDT" .stopped ∧
    (stopTradingSession stoppedRepo "BTCUSDT" 5).1.success = false := by
  exact ⟨by decide, by decide⟩

/-- Witness for C9: the entity-level stop is a no-op on the concrete
stopped session, and the public stop fails on the concrete repository
holding it. -/
theorem stop_idempotent_spec_witness :
    stoppedSession.stop 5 = stoppedSession ∧
    (stopTradingSession stoppedRepo "BTCUSDT" 5).1.success = false ∧
    (stopTradingSession stoppedRepo "BTCUSDT" 5).1.session = none ∧
    ((stopTradingSession stoppedRepo "BTCUSDT" 5).2).sessions =
      stoppedRepo.sessions :=
  ⟨stop_idempotent_spec.1 stoppedSession 5 (Or.inl rfl),
    stop_idempotent_spec.2.2 stoppedRepo "BTCUSDT" 5 (by decide)⟩

/-- C6 (amended): a BUY attempt is rejected with the specific failed gate —
and the executor state left unchanged, no order submitted — when the daily
trade cap is reached, when the balance is below the minimum, or, outside
testnet mode, when live execution is not explicitly enabled; blocked
outcomes are distinct from submission failures and report `False`;
`BinanceRealExecutor.place_market_buy` returns None (no order) whenever
real trading is not enabled. -/
theorem buy_safety_gates (s : ExecState) (sym : String)
    (bal price step : ℚ) (submit : Except String ℕ) (now : ℕ) :
    (∀ g, checkSafetyConditions s bal = some g →
      executeBuyOrder s sym bal price step submit now = (.blocked g, s)) ∧
    (s.daily_trades ≥ s.max_daily_trades →
      checkSafetyConditions s bal =
        some (.dailyLimit s.daily_trades s.max_daily_trades) ∧
      executeBuyOrder s sym bal price step submit now =
        (.blocked (.dailyLimit s.daily_trades s.max_daily_trades), s) ∧
      (executeBuyOrder s sym bal price step submit now).1.succeeded =
        false) ∧
    (s.daily_trades < s.max_daily_trades → bal < s.min_balance →
      executeBuyOrder s sym bal price step submit now =
        (.blocked (.lowBalance bal s.min_balance), s)) ∧
    (s.daily_trades < s.max_daily_trades → ¬bal < s.min_balance →
      s.testnet = false → s.real_trading = false →
      executeBuyOrder s sym bal price step submit now =
        (.blocked .notEnabled, s)) ∧
    (∀ (g : SafetyGate) (m : String), (BuyOutcome.blocked g) ≠
      .submitFailed m ∧ (BuyOutcome.blocked g).succeeded = false) ∧
    (∀ (enabled : Bool) (maxPos minBal usdt bal2 : ℚ)
      (submit2 : Except String ℕ), enabled = false →
      placeMarketBuy enabled maxPos minBal usdt bal2 submit2 = .ok none) := by
  have hblocked : ∀ g, checkSafetyConditions s bal = some g →
      executeBuyOrder s sym bal price step submit now = (.blocked g, s) := by
    intro g hg
    unfold executeBuyOrder
    rw [hg]
  refine ⟨hblocked, ?_, ?_, ?_, ?_, ?_⟩
  · intro h
    have hg : checkSafetyConditions s bal =
        some (.dailyLimit s.daily_trades s.max_daily_trades) := by
      unfold checkSafetyConditions
      rw [if_pos h]
    refine ⟨hg, hblocked _ hg, ?_⟩
    rw [hblocked _ hg]
    rfl
  · intro h1 h2
    apply hblocked
    unfold checkSafetyConditions
    rw [if_neg (by omega), if_pos h2]
  · intro h1 h2 h3 h4
    apply hblocked
    unfold checkSafetyConditions
    rw [if_neg (by omega), if_neg h2, if_pos (by simp [h3, h4])]
  · intro g m
    refine ⟨?_, rfl⟩
    intro hc
    cases hc
  · intro enabled maxPos minBal usdt bal2 submit2 h
    subst h
    unfold placeMarketBuy realSafetyChecks
    simp

/-- C6 counterexample: in testnet mode with live execution not explicitly
enabled and all other gates passing, the BUY attempt reports success
(simulated order) rather than the claimed failure. -/
theorem buy_not_enabled_counterexample :
    testnetExecState.real_trading = false ∧
    checkSafetyConditions testnetExecState 1000 = none ∧
    (executeBuyOrder testnetExecState "BTCUSDT" 1000 50000 (1/1000)
      (.ok 1) 0).1.succeeded = true := by
  exact ⟨rfl, by decide, by decide⟩

/-- Witness for C6: with the daily cap reached on a concrete state, the
BUY attempt is blocked with the daily-limit gate and the state unchanged. -/
theorem buy_safety_gates_witness :
    checkSafetyConditions cappedExecState 1000 =
      some (.dailyLimit 10 10) ∧
    executeBuyOrder cappedExecState "BTCUSDT" 1000 50000 (1/1000) (.ok 1)
      0 = (.blocked (.dailyLimit 10 10), cappedExecState) ∧
    (executeBuyOrder cappedExecState "BTCUSDT" 1000 50000 (1/1000) (.ok 1)
      0).1.succeeded = false :=
  (buy_safety_gates cappedExecState "BTCUSDT" 1000 50000 (1/1000) (.ok 1)
    0).2.1 (by decide)

/-- C7 (amended): a SELL with no open position fails with the state
unchanged; in live mode a successful SELL records realized
P&L = (exit − entry) × quantity in daily_pnl, removes the position and
increments daily_trades, while in simulated mode it removes the position
and increments daily_trades without computing any P&L; and a submission
error (SELL or BUY) leaves the position table and daily trade count
exactly as they were. -/
theorem sell_order_spec (s : ExecState) (sym : String) (exit_price : ℚ)
    (submit : Except String ℕ) :
    (lookup sym s.positions = none →
      executeSellOrder s sym exit_price submit = (.noPosition, s)) ∧
    (∀ pos, lookup sym s.positions = some pos → s.real_trading = true →
      (∀ e, submit = .error e →
        executeSellOrder s sym exit_price submit = (.submitFailed e, s)) ∧
      (∀ oid, submit = .ok oid →
        executeSellOrder s sym exit_price submit =
          (.sold ((exit_price - pos.entry_price) * pos.quantity),
            { s with
              daily_pnl := s.daily_pnl +
                (exit_price - pos.entry_price) * pos.quantity,
              positions := erase sym s.positions,
              daily_trades := s.daily_trades + 1 }))) ∧
    (∀ pos, lookup sym s.positions = some pos → s.real_trading = false →
      executeSellOrder s sym exit_price submit =
        (.simulated,
          { s with
            positions := erase sym s.positions,
            daily_trades := s.daily_trades + 1 })) ∧
    (∀ (bal price step : ℚ) (now : ℕ) (e : String), submit = .error e →
      checkSafetyConditions s bal = none → s.real_trading = true →
      executeBuyOrder s sym bal price step submit now =
        (.submitFailed e, s)) := by
  refine ⟨?_, ?_, ?_, ?_⟩
  · intro h
    unfold executeSellOrder
    rw [h]
  · intro pos hpos hreal
    constructor
    · intro e he
      unfold executeSellOrder
      rw [hpos, he]
      simp [hreal]
    · intro oid hoid
      unfold executeSellOrder
      rw [hpos, hoid]
      simp [hreal]
  · intro pos hpos hreal
    unfold executeSellOrder
    rw [hpos]
    simp [hreal]
  · intro bal price step now e he hsafe hreal
    unfold executeBuyOrder
    rw [hsafe, he]
    simp [hreal]

/-- C7 counterexample: a simulated-mode SELL succeeds, yet the recorded
daily P&L stays 0 instead of the claimed realized
P&L = (110 − 100) × 1 = 10. -/
theorem sell_simulated_no_pnl_counterexample :
    (executeSellOrder simSellState "BTCUSDT" 110 (.ok 2)).1.succeeded =
      true ∧
    (executeSellOrder simSellState "BTCUSDT" 110 (.ok 2)).2.daily_pnl =
      0 ∧
    (executeSellOrder simSellState "BTCUSDT" 110 (.ok 2)).2.daily_pnl ≠
      ((110 : ℚ) - 100) * 1 := by
  refine ⟨by decide, by decide, ?_⟩
  have h : (executeSellOrder simSellState "BTCUSDT" 110
      (.ok 2)).2.daily_pnl = 0 := by decide
  rw [h]
  norm_num

/-- Witness for C7: a concrete live-mode SELL records P&L 10, removes the
position and increments the trade count. -/
theorem sell_order_spec_witness :
    executeSellOrder liveSellState "BTCUSDT" 110 (.ok 2) =
      (.sold ((110 - 100) * 1),
        { liveSellState with
          daily_pnl := liveSellState.daily_pnl + (110 - 100) * 1,
          positions := erase "BTCUSDT" liveSellState.positions,
          daily_trades := liveSellState.daily_trades + 1 }) :=
  ((sell_order_spec liveSellState "BTCUSDT" 110 (.ok 2)).2.1 ⟨1, 100, 0, 7⟩
    (by decide) rfl).2 2 rfl

theorem roundHalfEven_sub_abs (x : ℚ) : |(roundHalfEven x : ℚ) - x| ≤ 1/2 := by
  have h1 : (⌊x⌋ : ℚ) ≤ x := Int.floor_le x
  have h2 : x < ⌊x⌋ + 1 := Int.lt_floor_add_one x
  unfold roundHalfEven
  split_ifs with ha hb hc
  · rw [abs_le]
    constructor <;> linarith
  · rw [abs_le]
    constructor <;> push_cast <;> linarith
  · have htie : x - ⌊x⌋ = 1/2 := le_antisymm (not_lt.1 hb) (not_lt.1 ha)
    rw [abs_le]
    constructor <;> linarith
  · have htie : x - ⌊x⌋ = 1/2 := le_antisymm (not_lt.1 hb) (not_lt.1 ha)
    rw [abs_le]
    constructor <;> push_cast <;> linarith

theorem stepPrecision_thousandth : stepPrecision (1/1000) = 3 := by
  unfold stepPrecision
  rw [dif_pos (by norm_num)]
  rw [Nat.find_eq_iff]
  refine ⟨by norm_num, ?_⟩
  intro k hk
  interval_cases k <;> norm_num

/-- C2 counterexample: with price 1, notional 0.0019 and lot step size
0.001 (precision 3), the computed quantity is 0.002 — strictly larger than
notional / current_price = 0.0019, so the quantity is rounded to nearest,
not truncated down. -/
theorem rounding_up_counterexample :
    calculate_quantity 1 (19/10000) (1/1000) = 1/500 ∧
    (19 : ℚ)/10000 / 1 < calculate_quantity 1 (19/10000) (1/1000) := by
  have hq : calculate_quantity 1 (19/10000) (1/1000) = 1/500 := by
    unfold calculate_quantity pyRound roundHalfEven
    rw [stepPrecision_thousandth]
    rw [show (⌊(19:ℚ)/10000 / 1 * 10 ^ 3⌋ : ℤ) = 1 by norm_num]
    norm_num
  exact ⟨hq, by rw [hq]; norm_num⟩

/-- C2 (amended): the submitted BUY quantity equals notional/current_price
rounded by Python's round (half to even) at the decimal precision derived
from the exchange lot step size: it is an integer multiple of
10^(−precision), and it can differ from notional/current_price in either
direction by at most half of 10^(−precision) — in particular it can be
larger than notional/current_price, so the computation is not a
truncation. -/
theorem calculate_quantity_spec (price usdt_amount step_size : ℚ) :
    calculate_quantity price usdt_amount step_size =
      pyRound (usdt_amount / price) (stepPrecision step_size) ∧
    (∃ k : ℤ, calculate_quantity price usdt_amount step_size =
      k / 10 ^ stepPrecision step_size) ∧
    |calculate_quantity price usdt_amount step_size - usdt_amount / price| ≤
      1 / (2 * 10 ^ stepPrecision step_size) := by
  refine ⟨rfl,
    ⟨roundHalfEven (usdt_amount / price * 10 ^ stepPrecision step_size),
      rfl⟩, ?_⟩
  unfold calculate_quantity pyRound
  set p := stepPrecision step_size with hp
  set y := usdt_amount / price * 10 ^ p with hy
  have h10 : (0 : ℚ) < 10 ^ p := by positivity
  have key : (roundHalfEven y : ℚ) / 10 ^ p - usdt_amount / price =
      ((roundHalfEven y : ℚ) - y) / 10 ^ p := by
    rw [hy]
    field_simp
    ring
  rw [key, abs_div, abs_of_pos h10]
  calc |(roundHalfEven y : ℚ) - y| / 10 ^ p ≤ (1/2) / 10 ^ p := by
        gcongr
        exact roundHalfEven_sub_abs y
  _ = 1 / (2 * 10 ^ p) := by ring

end TradingMVP
